import Mathlib

/-!
Verification of the Redis-compatible server in `app/main.py` against its
natural-language specification.  Strings on the wire are modelled as
`List Char` (the Python code handles `str` values after `.decode()`),
byte sequences (the RDB snapshot) as `List Nat`, and machine time as
`Int` milliseconds.  Fallible Python code (uncaught exceptions) is
modelled with `Option`: `none` means the handler raised and the
connection-handling loop broke out.
-/

/-- CRLF, the RESP line terminator. -/
def CRLF : List Char := ['\r', '\n']

/-- The code points Python treats as `str` whitespace (`str.isspace()`),
which is exactly the character set `str.strip()` removes: the ASCII
whitespace characters including the separators 0x1c-0x1f, plus NEL, NBSP
and the Unicode space/separator characters. -/
def pyWSCodes : List Nat :=
  [0x09, 0x0a, 0x0b, 0x0c, 0x0d, 0x1c, 0x1d, 0x1e, 0x1f, 0x20, 0x85, 0xa0,
   0x1680, 0x2000, 0x2001, 0x2002, 0x2003, 0x2004, 0x2005, 0x2006, 0x2007,
   0x2008, 0x2009, 0x200a, 0x2028, 0x2029, 0x202f, 0x205f, 0x3000]

/-- Python `str` whitespace test (`str.isspace()`), the exact character set
`str.strip()` removes from both ends. -/
def isPyWS (c : Char) : Bool := pyWSCodes.contains c.toNat

/-- Python `str.strip()`: drop whitespace from both ends. -/
def pyStrip (s : List Char) : List Char :=
  ((s.dropWhile isPyWS).reverse.dropWhile isPyWS).reverse

/-- Python `str.upper()` restricted to ASCII letters. -/
def pyUpperChar (c : Char) : Char :=
  if 'a' ≤ c ∧ c ≤ 'z' then Char.ofNat (c.toNat - 32) else c

/-- Python `str.upper()` on a whole string. -/
def pyUpper (s : List Char) : List Char := s.map pyUpperChar

/-- The decimal digit characters. -/
def digitChar : Nat → Char
  | 0 => '0' | 1 => '1' | 2 => '2' | 3 => '3' | 4 => '4'
  | 5 => '5' | 6 => '6' | 7 => '7' | 8 => '8' | 9 => '9'
  | _ => '?'

/-- Decimal representation of a natural number (Python `str(n)` / f-string
interpolation of a non-negative int), via fuel-bounded recursion. -/
def natDigitsAux : Nat → Nat → List Char
  | 0, _ => []
  | f + 1, n =>
    if n < 10 then [digitChar n]
    else natDigitsAux f (n / 10) ++ [digitChar (n % 10)]

/-- Decimal representation of a natural number. -/
def natDigits (n : Nat) : List Char := natDigitsAux (n + 1) n

/-- Is `c` one of the characters 0..9. -/
def isDigitChar (c : Char) : Bool := decide ('0' ≤ c) && decide (c ≤ '9')

/-- Accumulator loop for reading a decimal numeral. -/
def parseDigitsAux : List Char → Nat → Option Nat
  | [], acc => some acc
  | c :: rest, acc =>
    if isDigitChar c then parseDigitsAux rest (acc * 10 + (c.toNat - 48)) else none

/-- Read a non-empty string of decimal digits. -/
def parseDigits : List Char → Option Nat
  | [] => none
  | s => parseDigitsAux s 0

/-- Python `int(s)` as used by the source: an optional minus sign followed
by decimal digits; `none` models a raised `ValueError`. -/
def parseInt (s : List Char) : Option Int :=
  match s with
  | [] => none
  | c :: rest =>
    if c = '-' then
      match parseDigits rest with
      | some n => some (-(n : Int))
      | none => none
    else
      match parseDigits (c :: rest) with
      | some n => some ((n : Int))
      | none => none

/-- Python `s.split(sep)` for the two-character separator CRLF, scanning left
to right.  `split` of an empty string is `[""]`, as in Python. -/
def splitCRLF : List Char → List (List Char)
  | [] => [[]]
  | [c] => [[c]]
  | c :: c2 :: rest =>
    if c = '\r' ∧ c2 = '\n' then [] :: splitCRLF rest
    else
      match splitCRLF (c2 :: rest) with
      | [] => [[c]]
      | l :: ls => (c :: l) :: ls

/-- The argument-collecting `while` loop of `parse_resp` (main.py lines
157-166), acting on the remaining lines and the remaining argument count.
For each line starting with `$` it parses the (unused) length — a failed
parse raises, modelled by `none` — and, when a following line exists,
collects it as the next argument; other lines are skipped. -/
def parseLoop : List (List Char) → Nat → Option (List (List Char))
  | _, 0 => some []
  | [], _ + 1 => some []
  | l :: rest, n + 1 =>
    if l.head? = some '$' then
      match parseInt (l.drop 1) with
      | none => none
      | some _ =>
        match rest with
        | [] => some []
        | p :: rest2 =>
          match parseLoop rest2 n with
          | none => none
          | some acc => some (p :: acc)
    else parseLoop rest (n + 1)

/-- `parse_resp` (main.py lines 149-166): strip the command, split on CRLF,
require a `*`-prefixed header, then collect the announced number of
arguments.  `none` models an uncaught `ValueError` from `int()`. -/
def parse_resp (command : List Char) : Option (List (List Char)) :=
  let parts := splitCRLF (pyStrip command)
  match parts with
  | [] => some []
  | p0 :: rest =>
    if p0.head? = some '*' then
      match parseInt (p0.drop 1) with
      | none => none
      | some n => if n ≤ 0 then some [] else parseLoop rest n.toNat
    else some []

/-- One bulk-string fragment of the propagated command encoding
(the f-string piece of main.py line 343). -/
def bulk (s : List Char) : List Char :=
  '$' :: natDigits s.length ++ CRLF ++ s ++ CRLF

/-- `command_to_replicate` (main.py lines 343 and 371): the exact RESP
array-of-bulk-strings encoding of a command. -/
def encodeArray (args : List (List Char)) : List Char :=
  '*' :: natDigits args.length ++ CRLF ++ (args.map bulk).flatten

/-- The lines of an encoded command joined with CRLF separators (no trailing
separator): the inverse vantage point for reasoning about `splitCRLF`. -/
def joinLines : List (List Char) → List Char
  | [] => []
  | [l] => l
  | l :: l2 :: ls => l ++ '\r' :: '\n' :: joinLines (l2 :: ls)

/-- The per-argument line pairs (`$<len>` header line, payload line) of an
encoded command, as `splitCRLF` recovers them. -/
def pairsOf : List (List Char) → List (List Char)
  | [] => []
  | a :: t => ('$' :: natDigits a.length) :: a :: pairsOf t

/-- All lines of an encoded command: the `*<count>` header followed by the
argument line pairs. -/
def linesOf (args : List (List Char)) : List (List Char) :=
  ('*' :: natDigits args.length) :: pairsOf args

/-! ## The shared server state and the command dispatcher (`connect`) -/

/-- The in-memory keyspace `store`: an association list modelling the Python
dict mapping a key to `(value, expiry)`; `expiry = none` is `None`. -/
def Store := List (List Char × (List Char × Option Int))

/-- First-match lookup in an association list (Python `d[k]` / `d.get(k)`). -/
def dictGet {α : Type} (d : List (List Char × α)) (k : List Char) : Option α :=
  match d with
  | [] => none
  | (k', v) :: rest => if k' = k then some v else dictGet rest k

/-- Python `k in d`. -/
def dictContains {α : Type} (d : List (List Char × α)) (k : List Char) : Bool :=
  (dictGet d k).isSome

/-- Python `d[k] = v`: replace the existing binding in place, else append. -/
def dictInsert {α : Type} (d : List (List Char × α)) (k : List Char) (v : α) :
    List (List Char × α) :=
  match d with
  | [] => [(k, v)]
  | (k', v') :: rest =>
    if k' = k then (k, v) :: rest else (k', v') :: dictInsert rest k v

/-- Python `del d[k]` / `d.pop(k, None)`: drop the binding for `k`. -/
def dictRemove {α : Type} (d : List (List Char × α)) (k : List Char) :
    List (List Char × α) :=
  match d with
  | [] => []
  | (k', v') :: rest =>
    if k' = k then rest else (k', v') :: dictRemove rest k

/-- A configuration value: the source stores `dir` and `dbfilename` as Python
strings but `port` as a Python int (main.py lines 14-18). -/
inductive ConfigVal where
  | str : List Char → ConfigVal
  | int : Int → ConfigVal

/-- Python `len(value)`-compatible view of a config value: an f-string can
interpolate an int, but `len()` of an int raises `TypeError`, so only string
values yield a usable string here. -/
def configStr : ConfigVal → Option (List Char)
  | .str s => some s
  | .int _ => none

/-- The global mutable state shared by every connection worker:
`store`, `replica_sockets` (only its length is observable to the claims),
`replica_ack_offsets` (only its values are observable), `replication_offset`
and `config`. -/
structure St where
  store : Store
  replicaCount : Nat
  acks : List Int
  offset : Nat
  config : List (List Char × ConfigVal)

/-- The default `config` dict (main.py lines 14-18). -/
def defaultConfig : List (List Char × ConfigVal) :=
  [("dir".toList, .str "/tmp".toList),
   ("dbfilename".toList, .str "dump.rdb".toList),
   ("port".toList, .int 6379)]

/-- The server's initial state: empty store, no followers, offset 0. -/
def initialSt : St := ⟨[], 0, [], 0, defaultConfig⟩

/-- The hardcoded replication id (main.py line 320 and 430). -/
def replid : List Char := "8371b4fb1155b71f4a04d3e1bc3e18c4a990aeeb".toList

/-- The `REPLCONF GETACK *` request broadcast after each write
(main.py lines 352 and 380). -/
def getackCmd : List Char := "*3\r\n$8\r\nREPLCONF\r\n$6\r\nGETACK\r\n$1\r\n*\r\n".toList

/-- The `REPLCONF ACK <offset>` message (main.py lines 250, 268, 276, 424). -/
def ackCmd (off : Nat) : List Char :=
  "*3\r\n$8\r\nREPLCONF\r\n$3\r\nACK\r\n".toList ++
    '$' :: natDigits (natDigits off).length ++ CRLF ++ natDigits off ++ CRLF

/-- The fixed empty-RDB payload sent after FULLRESYNC
(main.py lines 433-441, `bytes.fromhex`). -/
def emptyRdb : List Nat :=
  [0x52, 0x45, 0x44, 0x49, 0x53, 0x30, 0x30, 0x31, 0x31, 0xfa, 0x09, 0x72,
   0x65, 0x64, 0x69, 0x73, 0x2d, 0x76, 0x65, 0x72, 0x05, 0x37, 0x2e, 0x32,
   0x2e, 0x30, 0xfa, 0x0a, 0x72, 0x65, 0x64, 0x69, 0x73, 0x2d, 0x62, 0x69,
   0x74, 0x73, 0xc0, 0x40, 0xfa, 0x05, 0x63, 0x74, 0x69, 0x6d, 0x65, 0xc2,
   0x6d, 0x08, 0xbc, 0x65, 0xfa, 0x08, 0x75, 0x73, 0x65, 0x64, 0x2d, 0x6d,
   0x65, 0x6d, 0xc2, 0xb0, 0xc4, 0x10, 0x00, 0xfa, 0x08, 0x61, 0x6f, 0x66,
   0x2d, 0x62, 0x61, 0x73, 0x65, 0xc0, 0x00, 0xff, 0xf0, 0x6e, 0x3b, 0xfe,
   0xc0, 0xff, 0x5a, 0xa2]

/-- The `KEYS *` sweep (main.py lines 413-419): walk the store, deleting a
key whose expiry is truthy (non-`None` and non-zero) and strictly exceeded,
collecting the remaining keys in order. -/
def keysFilter (now : Int) : Store → Store × List (List Char)
  | [] => ([], [])
  | (k, (v, e)) :: rest =>
    let (s, ks) := keysFilter now rest
    match e with
    | some ev => if ev ≠ 0 ∧ now > ev then (s, ks) else ((k, (v, some ev)) :: s, k :: ks)
    | none => ((k, (v, none)) :: s, k :: ks)

/-- The outcome of dispatching one parsed command in `connect`:
the updated shared state, the messages written back on this connection
(the `response` when non-empty, plus any direct `sendall`s), and the
messages propagated to every follower socket. -/
structure DispatchResult where
  st : St
  sent : List (List Char)
  propagated : List (List Char)

/-- The command dispatcher: the body of the `while` loop of `connect`
(main.py lines 305-471) after `parse_resp`, for one parsed command `args`
at wall-clock time `now` (ms).  `none` models an uncaught exception, which
makes `connect` break and close the connection without replying: this
happens for `CONFIG GET` of an int-valued parameter (`len()` of an int
raises `TypeError`, line 409) and for `WAIT` with a non-positive timeout
(the loop body never binds `acknowledged_replicas`, so line 460 raises
`NameError`).  The `WAIT` loop is modelled at a static snapshot of the ack
map: the code replies with the last computed count however the loop exits,
and sendall failures (which would drop followers) are out of scope. -/
def dispatch (st : St) (now : Int) (args : List (List Char)) : Option DispatchResult :=
  match args with
  | [] => some ⟨st, [], []⟩
  | a0 :: _ =>
    let cmd := pyUpper a0
    if cmd = "PING".toList then
      some ⟨st, ["+PONG\r\n".toList], []⟩
    else if cmd = "ECHO".toList ∧ args.length > 1 then
      some ⟨st, [bulk (args.getD 1 [])], []⟩
    else if cmd = "INFO".toList ∧ args.length = 2 ∧
        pyUpper (args.getD 1 []) = "REPLICATION".toList then
      let role := if dictContains st.config "replicaof".toList
        then "slave".toList else "master".toList
      let info := "role:".toList ++ role ++ CRLF ++ "master_replid:".toList ++ replid ++
        CRLF ++ "master_repl_offset:0".toList
      some ⟨st, ['$' :: natDigits info.length ++ CRLF ++ info ++ CRLF], []⟩
    else if cmd = "SET".toList ∧ args.length > 2 then
      let key := args.getD 1 []
      let value := args.getD 2 []
      -- On a bad PX value the source assigns the "-ERR PX value must be an
      -- integer" response (line 338) but then unconditionally overwrites it
      -- with "+OK" and stores the key without expiry (lines 340-341), so the
      -- ValueError leaves expiry = None and the error reply is dead.
      let expiry : Option Int :=
        if args.length > 4 ∧ pyUpper (args.getD 3 []) = "PX".toList then
          match parseInt (args.getD 4 []) with
          | some ms => some (now + ms)
          | none => none
        else none
      let cmdBytes := encodeArray args
      some ⟨{ st with
                store := dictInsert st.store key (value, expiry)
                offset := st.offset + cmdBytes.length },
        ["+OK\r\n".toList], [cmdBytes, getackCmd]⟩
    else if cmd = "DEL".toList ∧ args.length ≥ 2 then
      let key := args.getD 1 []
      let res :=
        if dictContains st.store key then (dictRemove st.store key, ":1\r\n".toList)
        else (st.store, ":0\r\n".toList)
      let cmdBytes := encodeArray args
      some ⟨{ st with
                store := res.1
                offset := st.offset + cmdBytes.length },
        [res.2], [cmdBytes, getackCmd]⟩
    else if cmd = "GET".toList ∧ args.length > 1 then
      let key := args.getD 1 []
      match dictGet st.store key with
      | some (v, some ev) =>
        if now ≥ ev then
          some ⟨{ st with store := dictRemove st.store key }, ["$-1\r\n".toList], []⟩
        else some ⟨st, [bulk v], []⟩
      | some (v, none) => some ⟨st, [bulk v], []⟩
      | none => some ⟨st, ["$-1\r\n".toList], []⟩
    else if cmd = "CONFIG".toList ∧ args.length = 3 ∧
        pyUpper (args.getD 1 []) = "GET".toList then
      let param := args.getD 2 []
      match dictGet st.config param with
      | some v =>
        match configStr v with
        | some s => some ⟨st, ["*2\r\n".toList ++ bulk param ++ bulk s], []⟩
        | none => none
      | none => some ⟨st, ["$-1\r\n".toList], []⟩
    else if cmd = "KEYS".toList ∧ args.length = 2 ∧ args.getD 1 [] = "*".toList then
      let res := keysFilter now st.store
      some ⟨{ st with store := res.1 },
        ['*' :: natDigits res.2.length ++ CRLF ++ (res.2.map bulk).flatten], []⟩
    else if cmd = "REPLCONF".toList ∧ args.length ≥ 2 then
      if args.length = 3 ∧ pyUpper (args.getD 1 []) = "GETACK".toList then
        some ⟨st, [ackCmd st.offset], []⟩
      else
        some ⟨st, ["+OK\r\n".toList], []⟩
    else if cmd = "PSYNC".toList ∧ args.length = 3 ∧ args.getD 1 [] = "?".toList ∧
        args.getD 2 [] = "-1".toList then
      let fullresync := "+FULLRESYNC ".toList ++ replid ++ [' '] ++
        natDigits st.offset ++ CRLF
      some ⟨{ st with replicaCount := st.replicaCount + 1 },
        [fullresync, '$' :: natDigits emptyRdb.length ++ CRLF ++
          emptyRdb.map Char.ofNat], []⟩
    else if cmd = "WAIT".toList ∧ args.length = 3 then
      match parseInt (args.getD 1 []), parseInt (args.getD 2 []) with
      | some _, some tms =>
        if tms ≤ 0 then none
        else
          let acknowledged := st.acks.countP (fun a => decide ((st.offset : Int) ≤ a))
          some ⟨st, [':' :: natDigits acknowledged ++ CRLF], []⟩
      | _, _ => some ⟨st, ["-ERR Invalid WAIT arguments\r\n".toList], []⟩
    else
      some ⟨st, ["-ERR unknown command\r\n".toList], []⟩

/-! ## The follower apply loop (`receive_commands_from_master`) -/

/-- A follower's observable state: its copy of `store` and its
`replication_offset` (`processed_offset` in the spec). -/
structure FollowerSt where
  store : Store
  offset : Nat

/-- One command application of `receive_commands_from_master`
(main.py lines 242-280), after the consumed bytes were already counted
into `replication_offset`: given the parsed command, return the updated
follower state and the messages written back to the master socket. -/
def applyMasterCommand (st : FollowerSt) (args : List (List Char)) :
    FollowerSt × List (List Char) :=
  match args with
  | [] => (st, [])
  | a0 :: _ =>
    let cmd := pyUpper a0
    if cmd = "REPLCONF".toList ∧ args.length = 3 ∧
        pyUpper (args.getD 1 []) = "GETACK".toList then
      (st, [ackCmd st.offset])
    else if cmd = "REPLCONF".toList ∧ args.length = 3 ∧
        pyUpper (args.getD 1 []) = "ACK".toList then
      -- records into replica_ack_offsets (unreachable from a real master,
      -- which never sends REPLCONF ACK to a follower); store untouched
      (st, [])
    else if cmd = "SET".toList ∧ args.length > 2 then
      -- the propagated SET is applied with expiry None: any PX argument
      -- in args is ignored (main.py line 266)
      ({ st with store := dictInsert st.store (args.getD 1 []) (args.getD 2 [], none) },
        [ackCmd st.offset])
    else if cmd = "DEL".toList ∧ args.length > 1 then
      ({ st with store := dictRemove st.store (args.getD 1 []) }, [ackCmd st.offset])
    else (st, [])

/-! ## The snapshot reader (`load_rdb_file`) -/

/-- `parse_length_encoding` (main.py lines 111-128): read one RDB length at
`pos`.  Returns the decoded length and the number of bytes consumed;
`none` models an uncaught `IndexError`/`struct.error` on truncated data.
The second `elif first_byte == 0x81` arm of the source (64-bit form) is
dead code, shadowed by the earlier test of the same byte, so it does not
appear here. -/
def parse_length_encoding (data : List Nat) (pos : Nat) : Option (Nat × Nat) :=
  match data[pos]? with
  | none => none
  | some b =>
    if b < 0x80 then some (b, 1)
    else if b = 0x81 then
      match data[pos + 1]? with
      | some v => some (v, 2)
      | none => none
    else if b = 0x82 then
      match data[pos + 1]?, data[pos + 2]? with
      | some b1, some b2 => some (b1 * 256 + b2, 3)
      | _, _ => none
    else if b = 0x83 then
      match data[pos + 1]?, data[pos + 2]?, data[pos + 3]?, data[pos + 4]? with
      | some b1, some b2, some b3, some b4 =>
        some (((b1 * 256 + b2) * 256 + b3) * 256 + b4, 5)
      | _, _, _, _ => none
    else if b = 0x80 then
      match data[pos + 1]?, data[pos + 2]?, data[pos + 3]?, data[pos + 4]? with
      | some b1, some b2, some b3, some b4 =>
        some (((b1 * 256 + b2) * 256 + b3) * 256 + b4, 5)
      | _, _, _, _ => none
    else some (0, 1)

/-- `data[pos : pos+n]`, a Python pySlice. -/
def pySlice (data : List Nat) (pos n : Nat) : List Nat :=
  (data.drop pos).take n

/-- `.decode("utf-8", errors="ignore").strip()` applied to key/value bytes
(main.py lines 82 and 92), modelled at the byte level: each byte becomes the
character of the same code and ASCII whitespace is stripped from both ends.
This is exact for ASCII data (all inputs considered by the claims);
multi-byte UTF-8 sequences are outside their scope. -/
def decodeStrip (bs : List Nat) : List Char :=
  pyStrip (bs.map Char.ofNat)

/-- The record-reading loop of `load_rdb_file` (main.py lines 34-105),
with fuel bounding the iteration count (each iteration advances `pos` by at
least one byte).  `expiry` is the stashed expiry; `now` is
`int(time.time() * 1000)`.  A `break` returns the store built so far; an
uncaught parse exception returns the empty store (`store.clear()`,
line 109). -/
def loadLoop (data : List Nat) (now : Int) :
    Nat → Nat → Option Int → Store → Store
  | 0, _, _, store => store
  | fuel + 1, pos, expiry, store =>
    if pos < data.length then
      match data[pos]? with
      | none => store
      | some b =>
        let pos1 := pos + 1
        if b = 0xFA then
          match parse_length_encoding data pos1 with
          | none => []
          | some (auxKeyLen, keySize) =>
            match parse_length_encoding data (pos1 + keySize) with
            | none => []
            | some (_, sz2) =>
              loadLoop data now fuel (pos1 + keySize + auxKeyLen + sz2) expiry store
        else if b = 0xFE then
          match parse_length_encoding data pos1 with
          | none => []
          | some (_, dbSize) => loadLoop data now fuel (pos1 + dbSize) expiry store
        else if b = 0xFD ∨ b = 0xFC then
          let sz := if b = 0xFC then 8 else 4
          if pos1 + sz > data.length then store
          else
            let value : Int :=
              if b = 0xFC then
                (data.getD pos1 0) + (data.getD (pos1 + 1) 0) * 256 +
                  (data.getD (pos1 + 2) 0) * 256 ^ 2 +
                  (data.getD (pos1 + 3) 0) * 256 ^ 3 +
                  (data.getD (pos1 + 4) 0) * 256 ^ 4 +
                  (data.getD (pos1 + 5) 0) * 256 ^ 5 +
                  (data.getD (pos1 + 6) 0) * 256 ^ 6 +
                  (data.getD (pos1 + 7) 0) * 256 ^ 7
              else
                ((data.getD pos1 0) + (data.getD (pos1 + 1) 0) * 256 +
                  (data.getD (pos1 + 2) 0) * 256 ^ 2 +
                  (data.getD (pos1 + 3) 0) * 256 ^ 3) * 1000
            loadLoop data now fuel (pos1 + sz) (some value) store
        else if b = 0xFB then
          match parse_length_encoding data pos1 with
          | none => []
          | some (_, sz1) =>
            match parse_length_encoding data (pos1 + sz1) with
            | none => []
            | some (_, sz2) => loadLoop data now fuel (pos1 + sz1 + sz2) expiry store
        else if b = 0xFF then store
        else if b ≤ 0x06 then
          match parse_length_encoding data pos1 with
          | none => []
          | some (keyLen, kls) =>
            let pos2 := pos1 + kls
            if pos2 + keyLen > data.length then store
            else
              let key := decodeStrip (pySlice data pos2 keyLen)
              let pos3 := pos2 + keyLen
              match parse_length_encoding data pos3 with
              | none => []
              | some (valLen, vls) =>
                let pos4 := pos3 + vls
                if pos4 + valLen > data.length then store
                else
                  let value := decodeStrip (pySlice data pos4 valLen)
                  let pos5 := pos4 + valLen
                  match expiry with
                  | some e =>
                    if e < now then
                      -- expired: skipped via `continue` (line 97), which
                      -- BYPASSES the `expiry = None` reset at line 101, so
                      -- the stale stash carries over to the next record
                      loadLoop data now fuel pos5 (some e) store
                    else
                      loadLoop data now fuel pos5 none
                        (dictInsert store key (value, some e))
                  | none =>
                    loadLoop data now fuel pos5 none
                      (dictInsert store key (value, none))
        else loadLoop data now fuel pos1 expiry store
    else store

/-- `load_rdb_file` on the file's contents: start after the 9-byte header
with no stashed expiry and an empty store. -/
def load_rdb_file (data : List Nat) (now : Int) : Store :=
  loadLoop data now (data.length + 1) 9 none []

/-- An RDB image exercising the expiry stash: after the 9-byte header, a
millisecond expiry record (`0xFC`, value 1), then a string record
`a -> x`, then a second string record `b -> y` with no expiry opcode in
between, then end-of-file. -/
def rdbStaleExpiryInput : List Nat :=
  [0x52, 0x45, 0x44, 0x49, 0x53, 0x30, 0x30, 0x31, 0x31,
   0xFC, 1, 0, 0, 0, 0, 0, 0, 0,
   0x00, 1, 0x61, 1, 0x78,
   0x00, 1, 0x62, 1, 0x79,
   0xFF]

/-! ## Helper lemmas -/

theorem dictGet_insert_self {α : Type} (d : List (List Char × α)) (k : List Char) (v : α) :
    dictGet (dictInsert d k v) k = some v := by
  induction d with
  | nil => simp [dictGet, dictInsert]
  | cons p rest ih =>
    obtain ⟨k', v'⟩ := p
    by_cases h : k' = k
    · subst h; simp [dictGet, dictInsert]
    · simp [dictGet, dictInsert, h, ih]

theorem digitChar_isDigit {n : Nat} (h : n < 10) : isDigitChar (digitChar n) = true := by
  interval_cases n <;> decide

theorem digitChar_toNat {n : Nat} (h : n < 10) : (digitChar n).toNat - 48 = n := by
  interval_cases n <;> decide

theorem natDigitsAux_mem_isDigit :
    ∀ (f n : Nat) (c : Char), c ∈ natDigitsAux f n → isDigitChar c = true := by
  intro f
  induction f with
  | zero => intro n c hc; simp [natDigitsAux] at hc
  | succ f ih =>
    intro n c hc
    rw [natDigitsAux] at hc
    by_cases hn : n < 10
    · rw [if_pos hn] at hc
      simp at hc
      subst hc
      exact digitChar_isDigit hn
    · rw [if_neg hn] at hc
      simp at hc
      rcases hc with hc | hc
      · exact ih _ _ hc
      · subst hc
        exact digitChar_isDigit (Nat.mod_lt _ (by norm_num))

theorem natDigits_mem_isDigit {n : Nat} {c : Char} (h : c ∈ natDigits n) :
    isDigitChar c = true :=
  natDigitsAux_mem_isDigit _ _ _ h

theorem isDigitChar_ne_cr {c : Char} (h : isDigitChar c = true) : c ≠ '\r' := by
  rintro rfl; revert h; decide

theorem natDigits_ne_nil (n : Nat) : natDigits n ≠ [] := by
  unfold natDigits natDigitsAux
  split <;> simp

theorem cr_not_mem_natDigits (n : Nat) : '\r' ∉ natDigits n := by
  intro h
  have := natDigits_mem_isDigit h
  revert this; decide

theorem parseDigitsAux_append (xs ys : List Char) (acc : Nat) :
    parseDigitsAux (xs ++ ys) acc =
      (parseDigitsAux xs acc).bind (fun a => parseDigitsAux ys a) := by
  induction xs generalizing acc with
  | nil => simp [parseDigitsAux]
  | cons c rest ih =>
    simp only [List.cons_append, parseDigitsAux]
    by_cases h : isDigitChar c
    · rw [if_pos h, if_pos h]; exact ih _
    · rw [if_neg h, if_neg h]; rfl

theorem parseDigitsAux_natDigitsAux :
    ∀ (f n acc : Nat), n < f →
      parseDigitsAux (natDigitsAux f n) acc =
        some (acc * 10 ^ (natDigitsAux f n).length + n) := by
  intro f
  induction f with
  | zero => intro n acc h; omega
  | succ f ih =>
    intro n acc h
    rw [natDigitsAux]
    by_cases hn : n < 10
    · rw [if_pos hn]
      simp [parseDigitsAux, digitChar_isDigit hn, digitChar_toNat hn]
    · rw [if_neg hn]
      have hdiv : n / 10 < f := by
        have := Nat.div_lt_self (show 0 < n by omega) (by norm_num : 1 < 10)
        omega
      rw [parseDigitsAux_append, ih _ acc hdiv]
      have hm : n % 10 < 10 := Nat.mod_lt _ (by norm_num)
      simp [parseDigitsAux, digitChar_isDigit hm, digitChar_toNat hm]
      rw [pow_succ]
      have hexp : (acc * 10 ^ (natDigitsAux f (n / 10)).length + n / 10) * 10 + n % 10 =
          (acc * 10 ^ (natDigitsAux f (n / 10)).length) * 10 + (n / 10) * 10 + n % 10 := by
        ring
      have hmul : acc * (10 ^ (natDigitsAux f (n / 10)).length * 10) =
          (acc * 10 ^ (natDigitsAux f (n / 10)).length) * 10 := by ring
      rw [hexp, hmul]
      omega

theorem parseDigits_natDigits (n : Nat) : parseDigits (natDigits n) = some n := by
  have hne := natDigits_ne_nil n
  rcases hd : natDigits n with _ | ⟨c, cs⟩
  · exact absurd hd hne
  · have h0 : parseDigits (c :: cs) = parseDigitsAux (c :: cs) 0 := rfl
    rw [h0, ← hd]
    simp only [natDigits]
    rw [parseDigitsAux_natDigitsAux (n + 1) n 0 (by omega)]
    simp

theorem parseInt_natDigits (n : Nat) : parseInt (natDigits n) = some (n : Int) := by
  have hne := natDigits_ne_nil n
  rcases hd : natDigits n with _ | ⟨c, cs⟩
  · exact absurd hd hne
  · have hdig : isDigitChar c = true := by
      apply natDigits_mem_isDigit (n := n); rw [hd]; simp
    have hc : c ≠ '-' := by rintro rfl; revert hdig; decide
    have h1 : parseInt (c :: cs) =
        match parseDigits (c :: cs) with
        | some m => some ((m : Int))
        | none => none := by
      rw [parseInt, if_neg hc]
    rw [h1, ← hd, parseDigits_natDigits]

theorem splitCRLF_single {l : List Char} (h : '\r' ∉ l) : splitCRLF l = [l] := by
  induction l with
  | nil => rfl
  | cons c l' ih =>
    have hc : c ≠ '\r' := by intro hc; exact h (hc ▸ List.mem_cons_self c l')
    have hl' : '\r' ∉ l' := fun hm => h (List.mem_cons_of_mem c hm)
    cases l' with
    | nil => rfl
    | cons c2 rest =>
      rw [splitCRLF, if_neg (fun hand => hc hand.1), ih hl']

theorem splitCRLF_append_crlf {l : List Char} (rest : List Char) (h : '\r' ∉ l) :
    splitCRLF (l ++ '\r' :: '\n' :: rest) = l :: splitCRLF rest := by
  induction l with
  | nil => simp [splitCRLF]
  | cons c l' ih =>
    have hc : c ≠ '\r' := by intro hc; exact h (hc ▸ List.mem_cons_self c l')
    have hl' : '\r' ∉ l' := fun hm => h (List.mem_cons_of_mem c hm)
    rcases hl : l' ++ '\r' :: '\n' :: rest with _ | ⟨x, xs⟩
    · simp at hl
    · rw [List.cons_append, hl, splitCRLF, if_neg (fun hand => hc hand.1), ← hl, ih hl']

theorem splitCRLF_joinLines :
    ∀ (lines : List (List Char)), lines ≠ [] → (∀ l ∈ lines, '\r' ∉ l) →
      splitCRLF (joinLines lines) = lines := by
  intro lines
  induction lines with
  | nil => intro h; exact absurd rfl h
  | cons l ls ih =>
    intro _ hcr
    cases ls with
    | nil => exact splitCRLF_single (hcr l (by simp))
    | cons l2 ls' =>
      rw [joinLines, splitCRLF_append_crlf _ (hcr l (by simp)),
        ih (by simp) (fun x hx => hcr x (List.mem_cons_of_mem l hx))]

theorem joinLines_cons_cons (l l2 : List Char) (ls : List (List Char)) :
    joinLines (l :: l2 :: ls) = l ++ '\r' :: '\n' :: joinLines (l2 :: ls) := rfl

theorem bodyJoin_eq :
    ∀ (t : List (List Char)) (a : List Char),
      ((a :: t).map bulk).flatten = joinLines (pairsOf (a :: t)) ++ CRLF := by
  intro t
  induction t with
  | nil =>
    intro a
    simp [bulk, pairsOf, joinLines, CRLF]
  | cons b t' ih =>
    intro a
    have h1 : ((a :: b :: t').map bulk).flatten = bulk a ++ ((b :: t').map bulk).flatten := by
      simp
    rw [h1, ih b]
    have hpa : pairsOf (a :: b :: t') =
        ('$' :: natDigits a.length) :: a :: ('$' :: natDigits b.length) :: b :: pairsOf t' := rfl
    have hpb : pairsOf (b :: t') = ('$' :: natDigits b.length) :: b :: pairsOf t' := rfl
    simp only [hpa, hpb, joinLines_cons_cons]
    simp [bulk, CRLF]

theorem encode_eq_joinLines (args : List (List Char)) :
    encodeArray args = joinLines (linesOf args) ++ CRLF := by
  cases args with
  | nil => rfl
  | cons a t =>
    have hpa : pairsOf (a :: t) = ('$' :: natDigits a.length) :: a :: pairsOf t := rfl
    rw [encodeArray, bodyJoin_eq t a, linesOf]
    simp only [hpa, joinLines_cons_cons]
    simp [CRLF]

theorem pyStrip_wrap (c c0 : Char) (s : List Char)
    (hc : isPyWS c = false) (hc0 : isPyWS c0 = false) :
    pyStrip (c :: (s ++ [c0] ++ ['\r', '\n'])) = c :: (s ++ [c0]) := by
  unfold pyStrip
  have h1 : (c :: (s ++ [c0] ++ ['\r', '\n'])).dropWhile isPyWS =
      c :: (s ++ [c0] ++ ['\r', '\n']) := by
    simp [List.dropWhile_cons, hc]
  have h2 : (c :: (s ++ [c0] ++ ['\r', '\n'])).reverse =
      '\n' :: '\r' :: c0 :: (s.reverse ++ [c]) := by
    simp
  have h3 : ('\n' :: '\r' :: c0 :: (s.reverse ++ [c])).dropWhile isPyWS =
      c0 :: (s.reverse ++ [c]) := by
    have e1 : isPyWS '\n' = true := by decide
    have e2 : isPyWS '\r' = true := by decide
    simp [List.dropWhile_cons, e1, e2, hc0]
  rw [h1, h2, h3]
  simp

theorem joinLines_concat_suffix :
    ∀ (ls : List (List Char)) (l : List Char),
      ∃ pre, joinLines (ls ++ [l]) = pre ++ l := by
  intro ls
  induction ls with
  | nil => intro l; exact ⟨[], rfl⟩
  | cons x ls' ih =>
    intro l
    obtain ⟨pre, hpre⟩ := ih l
    rcases hsh : ls' ++ [l] with _ | ⟨z, zs⟩
    · simp at hsh
    · refine ⟨x ++ '\r' :: '\n' :: pre, ?_⟩
      rw [List.cons_append, hsh, joinLines_cons_cons, ← hsh, hpre]
      simp

theorem pairsOf_concat (L : List (List Char)) (a : List Char) :
    pairsOf (L ++ [a]) = pairsOf L ++ [('$' :: natDigits a.length), a] := by
  induction L with
  | nil => rfl
  | cons x xs ih => simp [pairsOf, ih]

theorem pairsOf_no_cr :
    ∀ (args : List (List Char)), (∀ p ∈ args, '\r' ∉ p) →
      ∀ l ∈ pairsOf args, '\r' ∉ l := by
  intro args
  induction args with
  | nil => intro _ l hl; simp [pairsOf] at hl
  | cons a t ih =>
    intro h l hl
    rw [pairsOf] at hl
    rcases List.mem_cons.mp hl with rfl | hl
    · intro hm
      rcases List.mem_cons.mp hm with h1 | h1
      · exact absurd h1 (by decide)
      · exact cr_not_mem_natDigits _ h1
    · rcases List.mem_cons.mp hl with rfl | hl
      · exact h l (by simp)
      · exact ih (fun p hp => h p (by simp [hp])) l hl

theorem linesOf_no_cr (args : List (List Char)) (hcr : ∀ p ∈ args, '\r' ∉ p) :
    ∀ l ∈ linesOf args, '\r' ∉ l := by
  intro l hl
  rw [linesOf] at hl
  rcases List.mem_cons.mp hl with rfl | hl
  · intro hm
    rcases List.mem_cons.mp hm with h1 | h1
    · exact absurd h1 (by decide)
    · exact cr_not_mem_natDigits _ h1
  · exact pairsOf_no_cr args hcr l hl

theorem pyStrip_encode (L : List (List Char)) (a0 : List Char) (c0 : Char)
    (hc0 : isPyWS c0 = false) :
    pyStrip (encodeArray (L ++ [a0 ++ [c0]])) = joinLines (linesOf (L ++ [a0 ++ [c0]])) := by
  obtain ⟨pre, hpre⟩ :=
    joinLines_concat_suffix (pairsOf L ++ [('$' :: natDigits (a0 ++ [c0]).length)]) (a0 ++ [c0])
  have hshape : joinLines (linesOf (L ++ [a0 ++ [c0]])) =
      '*' :: ((natDigits (L ++ [a0 ++ [c0]]).length ++ '\r' :: '\n' :: pre ++ a0) ++ [c0]) := by
    rw [linesOf, pairsOf_concat]
    have hM : pairsOf L ++ [('$' :: natDigits (a0 ++ [c0]).length), a0 ++ [c0]] =
        (pairsOf L ++ [('$' :: natDigits (a0 ++ [c0]).length)]) ++ [a0 ++ [c0]] := by simp
    rw [hM]
    rcases hsh : (pairsOf L ++ [('$' :: natDigits (a0 ++ [c0]).length)]) ++ [a0 ++ [c0]]
      with _ | ⟨z, zs⟩
    · simp at hsh
    · rw [joinLines_cons_cons, ← hsh, hpre]
      simp
  rw [encode_eq_joinLines, hshape]
  have hw := pyStrip_wrap '*' c0
    (natDigits (L ++ [a0 ++ [c0]]).length ++ '\r' :: '\n' :: pre ++ a0) (by decide) hc0
  simpa [CRLF] using hw

theorem parseLoop_pairsOf :
    ∀ (args : List (List Char)), parseLoop (pairsOf args) args.length = some args := by
  intro args
  induction args with
  | nil => rfl
  | cons a t ih =>
    have h1 : parseLoop (pairsOf (a :: t)) (a :: t).length =
        parseLoop (('$' :: natDigits a.length) :: a :: pairsOf t) (t.length + 1) := rfl
    rw [h1]
    simp [parseLoop, parseInt_natDigits, ih]

/-! ## Claims -/

/-- C1: contrary to the claim, on the leader a `REPLCONF ACK <n>` request is
answered with `+OK` on the same connection, and no bookkeeping at all is
updated (the shared state, including `replica_ack_offsets`, is returned
unchanged): the `elif` at main.py line 422 matches `REPLCONF` with a non-
GETACK subcommand and sets `response = "+OK\r\n"`; the only code that
records into `replica_ack_offsets` sits in the follower-side loop
(lines 255-262) where a master never sends ACKs.  Evaluated here for an
arbitrary ack-offset argument and arbitrary shared state. -/
theorem replconf_ack_on_leader_replies_ok_and_keeps_state (st : St) (now : Int)
    (nstr : List Char) :
    dispatch st now ["REPLCONF".toList, "ACK".toList, nstr] =
      some ⟨st, ["+OK\r\n".toList], []⟩ := rfl

/-- C2: `SET k v PX abc` (non-integer PX) replies `+OK` and stores the key
without expiry, not the claimed `-ERR PX value must be an integer` reply:
the error response assigned on the `ValueError` path (main.py line 338) is
unconditionally overwritten by `+OK` at line 341.  The final conjunct
records that `int("abc")` indeed raises. -/
theorem set_bad_px_replies_ok_not_error :
    dispatch initialSt 0 ["SET".toList, "k".toList, "v".toList, "PX".toList, "abc".toList] =
      some ⟨⟨[("k".toList, ("v".toList, none))], 0, [], 44, defaultConfig⟩,
        ["+OK\r\n".toList],
        [encodeArray ["SET".toList, "k".toList, "v".toList, "PX".toList, "abc".toList],
          getackCmd]⟩ ∧
    "+OK\r\n".toList ≠ "-ERR PX value must be an integer\r\n".toList ∧
    parseInt "abc".toList = none :=
  ⟨rfl, by decide, rfl⟩

/-- C3 counterexample: on a leader with one connected follower and no write
ever propagated (`replication_offset = 0`, empty ack map — the leader-side
dispatcher never records ACKs, see C1), `WAIT 1 500` replies `:0`, not the
claimed follower count `:1`. -/
theorem wait_no_writes_replies_zero_despite_follower :
    dispatch ⟨[], 1, [], 0, defaultConfig⟩ 0
        ["WAIT".toList, "1".toList, "500".toList] =
      some ⟨⟨[], 1, [], 0, defaultConfig⟩, [":0\r\n".toList], []⟩ ∧
    (⟨[], 1, [], 0, defaultConfig⟩ : St).replicaCount = 1 ∧
    ":0\r\n".toList ≠ ":1\r\n".toList :=
  ⟨rfl, rfl, by decide⟩

/-- C3 amended: `WAIT numreplicas timeout_ms` (with integer arguments and a
positive timeout) replies `:k` where `k` counts the entries of
`replica_ack_offsets` whose value is at least `replication_offset`
(main.py line 455) — there is no special case taking the connected
follower count when no write has been propagated. -/
theorem wait_replies_acked_count (st : St) (now e t : Int) (es ts : List Char)
    (he : parseInt es = some e) (ht : parseInt ts = some t) (htpos : 0 < t) :
    dispatch st now ["WAIT".toList, es, ts] =
      some ⟨st,
        [':' :: natDigits (st.acks.countP (fun a => decide ((st.offset : Int) ≤ a))) ++ CRLF],
        []⟩ := by
  have h0 : dispatch st now ["WAIT".toList, es, ts] =
      (match parseInt es, parseInt ts with
       | some _, some tms =>
         if tms ≤ 0 then none
         else
           some ⟨st,
             [':' :: natDigits (st.acks.countP (fun a => decide ((st.offset : Int) ≤ a))) ++
               CRLF], []⟩
       | _, _ => some ⟨st, ["-ERR Invalid WAIT arguments\r\n".toList], []⟩) := rfl
  rw [h0, he, ht]
  simp only []
  rw [if_neg (by omega : ¬(t ≤ 0))]

/-- C3 witness: two recorded acks at offsets 5 and 0 against
`replication_offset = 3` make `WAIT 0 500` reply `:1`. -/
theorem wait_replies_acked_count_witness :
    dispatch ⟨[], 2, [5, 0], 3, defaultConfig⟩ 0
        ["WAIT".toList, "0".toList, "500".toList] =
      some ⟨⟨[], 2, [5, 0], 3, defaultConfig⟩, [":1\r\n".toList], []⟩ :=
  wait_replies_acked_count ⟨[], 2, [5, 0], 3, defaultConfig⟩ 0 0 500
    "0".toList "500".toList rfl rfl (by norm_num)

/-- C5: after `SET K V PX Ts` (with `Ts` reading as the integer `T > 0`) at
time `now`, the reply is `+OK` and the key is stored with absolute expiry
`now + T`; a subsequent `GET K` at any time `t ≥ now + T` replies the null
bulk `$-1` (removing the key), and at any time `t < now + T` replies the
bulk string `V` (main.py lines 330-341 and 389-404). -/
theorem set_px_get_expiry_semantics (st : St) (K V Ts : List Char) (T now t : Int)
    (hT : parseInt Ts = some T) (hTpos : 0 < T) :
    dispatch st now ["SET".toList, K, V, "PX".toList, Ts] =
      some ⟨{ st with
                store := dictInsert st.store K (V, some (now + T))
                offset := st.offset + (encodeArray ["SET".toList, K, V, "PX".toList, Ts]).length },
        ["+OK\r\n".toList],
        [encodeArray ["SET".toList, K, V, "PX".toList, Ts], getackCmd]⟩ ∧
    (now + T ≤ t →
      dispatch { st with
          store := dictInsert st.store K (V, some (now + T))
          offset := st.offset + (encodeArray ["SET".toList, K, V, "PX".toList, Ts]).length }
        t ["GET".toList, K] =
      some ⟨{ st with
                store := dictRemove (dictInsert st.store K (V, some (now + T))) K
                offset := st.offset + (encodeArray ["SET".toList, K, V, "PX".toList, Ts]).length },
        ["$-1\r\n".toList], []⟩) ∧
    (t < now + T →
      dispatch { st with
          store := dictInsert st.store K (V, some (now + T))
          offset := st.offset + (encodeArray ["SET".toList, K, V, "PX".toList, Ts]).length }
        t ["GET".toList, K] =
      some ⟨{ st with
                store := dictInsert st.store K (V, some (now + T))
                offset := st.offset + (encodeArray ["SET".toList, K, V, "PX".toList, Ts]).length },
        [bulk V], []⟩) := by
  have hset : dispatch st now ["SET".toList, K, V, "PX".toList, Ts] =
      some ⟨{ st with
                store := dictInsert st.store K (V,
                  match parseInt Ts with
                  | some ms => some (now + ms)
                  | none => none)
                offset := st.offset +
                  (encodeArray ["SET".toList, K, V, "PX".toList, Ts]).length },
        ["+OK\r\n".toList],
        [encodeArray ["SET".toList, K, V, "PX".toList, Ts], getackCmd]⟩ := rfl
  rw [hT] at hset
  refine ⟨hset, ?_, ?_⟩ <;> intro hcmp
  all_goals
    have hget : ∀ (s : St), dispatch s t ["GET".toList, K] =
        (match dictGet s.store K with
         | some (v, some ev) =>
           if t ≥ ev then
             some ⟨{ s with store := dictRemove s.store K }, ["$-1\r\n".toList], []⟩
           else some ⟨s, [bulk v], []⟩
         | some (v, none) => some ⟨s, [bulk v], []⟩
         | none => some ⟨s, ["$-1\r\n".toList], []⟩) := fun s => rfl
  · rw [hget]
    simp only [dictGet_insert_self]
    rw [if_pos (by omega : t ≥ now + T)]
  · rw [hget]
    simp only [dictGet_insert_self]
    rw [if_neg (by omega : ¬(t ≥ now + T))]

/-- C5 witness: `SET k v PX 100` at time 0, then `GET k` at times 100
(expired: null bulk) and 99 (live: bulk `v`). -/
theorem set_px_get_expiry_semantics_witness :
    dispatch initialSt 0 ["SET".toList, "k".toList, "v".toList, "PX".toList, "100".toList] =
      some ⟨⟨[("k".toList, ("v".toList, some 100))], 0, [], 44, defaultConfig⟩,
        ["+OK\r\n".toList],
        [encodeArray ["SET".toList, "k".toList, "v".toList, "PX".toList, "100".toList],
          getackCmd]⟩ ∧
    dispatch ⟨[("k".toList, ("v".toList, some 100))], 0, [], 44, defaultConfig⟩ 100
        ["GET".toList, "k".toList] =
      some ⟨⟨[], 0, [], 44, defaultConfig⟩, ["$-1\r\n".toList], []⟩ ∧
    dispatch ⟨[("k".toList, ("v".toList, some 100))], 0, [], 44, defaultConfig⟩ 99
        ["GET".toList, "k".toList] =
      some ⟨⟨[("k".toList, ("v".toList, some 100))], 0, [], 44, defaultConfig⟩,
        [bulk "v".toList], []⟩ := by
  refine ⟨?_, ?_, ?_⟩
  · exact (set_px_get_expiry_semantics initialSt "k".toList "v".toList "100".toList
      100 0 100 rfl (by norm_num)).1
  · exact (set_px_get_expiry_semantics initialSt "k".toList "v".toList "100".toList
      100 0 100 rfl (by norm_num)).2.1 (by norm_num)
  · exact (set_px_get_expiry_semantics initialSt "k".toList "v".toList "100".toList
      100 0 99 rfl (by norm_num)).2.2 (by norm_num)

/-- C6 counterexample: with a stored but non-live entry
`k -> (v, expires_at 500)` at wall-clock time 1000, `DEL k` replies `:1`,
not the claimed `:0`: the handler (main.py lines 362-368) tests only
`key in store` and never consults the expiry. -/
theorem del_expired_entry_replies_one :
    dispatch ⟨[("k".toList, ("v".toList, some 500))], 0, [], 0, defaultConfig⟩ 1000
        ["DEL".toList, "k".toList] =
      some ⟨⟨[], 0, [], 20, defaultConfig⟩, [":1\r\n".toList],
        [encodeArray ["DEL".toList, "k".toList], getackCmd]⟩ ∧
    (1000 : Int) ≥ 500 ∧
    ":1\r\n".toList ≠ ":0\r\n".toList :=
  ⟨rfl, by norm_num, by decide⟩

/-- C6 amended: `DEL K` replies `:1` and removes the entry precisely when an
entry for `K` is present in the store — live or not (the wall-clock time
plays no role) — and replies `:0` leaving the store unchanged when `K` is
absent; in both cases the command is propagated and the offset advanced. -/
theorem del_replies_by_presence (st : St) (now : Int) (K : List Char) :
    (dictContains st.store K = true →
      dispatch st now ["DEL".toList, K] =
        some ⟨{ st with
                  store := dictRemove st.store K
                  offset := st.offset + (encodeArray ["DEL".toList, K]).length },
          [":1\r\n".toList], [encodeArray ["DEL".toList, K], getackCmd]⟩) ∧
    (dictContains st.store K = false →
      dispatch st now ["DEL".toList, K] =
        some ⟨{ st with offset := st.offset + (encodeArray ["DEL".toList, K]).length },
          [":0\r\n".toList], [encodeArray ["DEL".toList, K], getackCmd]⟩) := by
  have h0 : dispatch st now ["DEL".toList, K] =
      some ⟨{ st with
                store := (if dictContains st.store K then
                  (dictRemove st.store K, ":1\r\n".toList)
                  else (st.store, ":0\r\n".toList)).1
                offset := st.offset + (encodeArray ["DEL".toList, K]).length },
        [(if dictContains st.store K then (dictRemove st.store K, ":1\r\n".toList)
          else (st.store, ":0\r\n".toList)).2],
        [encodeArray ["DEL".toList, K], getackCmd]⟩ := rfl
  constructor <;> intro h <;> rw [h0, h] <;> norm_num

/-- C6 witness: both sides of the presence dichotomy on concrete stores
(an expired entry present, and an absent key). -/
theorem del_replies_by_presence_witness :
    dispatch ⟨[("j".toList, ("w".toList, some 1))], 0, [], 0, defaultConfig⟩ 99
        ["DEL".toList, "j".toList] =
      some ⟨⟨[], 0, [], 20, defaultConfig⟩, [":1\r\n".toList],
        [encodeArray ["DEL".toList, "j".toList], getackCmd]⟩ ∧
    dispatch initialSt 0 ["DEL".toList, "j".toList] =
      some ⟨⟨[], 0, [], 20, defaultConfig⟩, [":0\r\n".toList],
        [encodeArray ["DEL".toList, "j".toList], getackCmd]⟩ := by
  constructor
  · exact (del_replies_by_presence
      ⟨[("j".toList, ("w".toList, some 1))], 0, [], 0, defaultConfig⟩ 99 "j".toList).1 rfl
  · exact (del_replies_by_presence initialSt 0 "j".toList).2 rfl

/-- C7: loading an RDB image in which an in-the-past expiry (value 1,
`now = 1000`) precedes key `a`, followed by key `b` with no expiry of its
own, yields an empty store: skipping the expired record `a` leaves the
stash set (the `continue` at main.py line 97 bypasses the `expiry = None`
reset at line 101), so `b` is also skipped, although the claim requires the
stash to be cleared and `b` to be stored without expiry. -/
theorem rdb_load_stale_expiry_drops_next_record :
    load_rdb_file rdbStaleExpiryInput 1000 = ([] : Store) ∧
    dictGet (load_rdb_file rdbStaleExpiryInput 1000) "b".toList = none :=
  ⟨rfl, rfl⟩

/-- C8 counterexample: `CONFIG GET port` on the default configuration raises
(`len()` of the int-valued `config["port"]` is a `TypeError`, main.py
line 409), so the connection handler breaks with no reply at all — not the
claimed `*2` array. -/
theorem config_get_port_raises :
    dispatch initialSt 0 ["CONFIG".toList, "GET".toList, "port".toList] = none := rfl

/-- C8 amended: `CONFIG GET p` replies the two-element array
`*2 <p> <value>` for a recognized parameter whose configured value is a
string (`dir`, `dbfilename`), raises a `TypeError` — closing the connection
without a reply — for the int-valued `port`, and replies the null bulk
`$-1` for an unrecognized parameter. -/
theorem config_get_reply_shapes (st : St) (now : Int) (param : List Char) :
    (∀ s, dictGet st.config param = some (ConfigVal.str s) →
      dispatch st now ["CONFIG".toList, "GET".toList, param] =
        some ⟨st, ["*2\r\n".toList ++ bulk param ++ bulk s], []⟩) ∧
    (∀ i, dictGet st.config param = some (ConfigVal.int i) →
      dispatch st now ["CONFIG".toList, "GET".toList, param] = none) ∧
    (dictGet st.config param = none →
      dispatch st now ["CONFIG".toList, "GET".toList, param] =
        some ⟨st, ["$-1\r\n".toList], []⟩) := by
  have h0 : dispatch st now ["CONFIG".toList, "GET".toList, param] =
      (match dictGet st.config param with
       | some v =>
         match configStr v with
         | some s => some ⟨st, ["*2\r\n".toList ++ bulk param ++ bulk s], []⟩
         | none => none
       | none => some ⟨st, ["$-1\r\n".toList], []⟩) := rfl
  refine ⟨fun s hs => ?_, fun i hi => ?_, fun hn => ?_⟩
  · rw [h0, hs]; rfl
  · rw [h0, hi]; rfl
  · rw [h0, hn]

/-- C8 witness: on the default configuration, `dir` yields its `*2` reply,
`port` raises, and an unknown parameter yields `$-1`. -/
theorem config_get_reply_shapes_witness :
    dispatch initialSt 0 ["CONFIG".toList, "GET".toList, "dir".toList] =
      some ⟨initialSt, ["*2\r\n$3\r\ndir\r\n$4\r\n/tmp\r\n".toList], []⟩ ∧
    dispatch initialSt 0 ["CONFIG".toList, "GET".toList, "maxmemory".toList] =
      some ⟨initialSt, ["$-1\r\n".toList], []⟩ := by
  constructor
  · exact (config_get_reply_shapes initialSt 0 "dir".toList).1 "/tmp".toList rfl
  · exact (config_get_reply_shapes initialSt 0 "maxmemory".toList).2.2 rfl

/-- C9: a `SET` command applied from the replication stream stores the key
with `expires_at = None` — the handler (main.py lines 264-266) reads only
`args[1]` and `args[2]`, so any `PX`/`ms` arguments present in the
propagated command are discarded and the entry can never expire on the
follower.  The command name is matched case-insensitively. -/
theorem replicated_set_discards_px (st : FollowerSt) (a0 K V px ms : List Char)
    (h : pyUpper a0 = "SET".toList) :
    applyMasterCommand st [a0, K, V, px, ms] =
      ({ st with store := dictInsert st.store K (V, none) }, [ackCmd st.offset]) ∧
    dictGet (dictInsert st.store K (V, none)) K = some (V, none) := by
  constructor
  · simp only [applyMasterCommand, h]
    simp
  · exact dictGet_insert_self st.store K (V, none)

/-- C9 witness: the propagated command `set k v PX 99` applied on a follower
stores `k -> (v, None)`. -/
theorem replicated_set_discards_px_witness :
    applyMasterCommand ⟨[], 7⟩
        ["set".toList, "k".toList, "v".toList, "PX".toList, "99".toList] =
      (⟨[("k".toList, ("v".toList, none))], 7⟩, [ackCmd 7]) ∧
    dictGet [("k".toList, ("v".toList, (none : Option Int)))] "k".toList =
      some ("v".toList, none) :=
  replicated_set_discards_px ⟨[], 7⟩ "set".toList "k".toList "v".toList
    "PX".toList "99".toList rfl

/-- C10: a `DEL K` whose key is absent (reply `:0`) still sends the exact
RESP encoding of the command — followed by the `REPLCONF GETACK *` probe —
to every connected follower, and still advances `replication_offset` by the
encoding's byte count, identically to a successful deletion (propagation
and the offset increment at main.py lines 370-388 sit outside the
`if key in store` branch). -/
theorem del_absent_still_propagates (st : St) (now : Int) (K : List Char)
    (h : dictContains st.store K = false) :
    dispatch st now ["DEL".toList, K] =
      some ⟨{ st with offset := st.offset + (encodeArray ["DEL".toList, K]).length },
        [":0\r\n".toList], [encodeArray ["DEL".toList, K], getackCmd]⟩ := by
  have h0 : dispatch st now ["DEL".toList, K] =
      some ⟨{ st with
                store := (if dictContains st.store K then
                  (dictRemove st.store K, ":1\r\n".toList)
                  else (st.store, ":0\r\n".toList)).1
                offset := st.offset + (encodeArray ["DEL".toList, K]).length },
        [(if dictContains st.store K then (dictRemove st.store K, ":1\r\n".toList)
          else (st.store, ":0\r\n".toList)).2],
        [encodeArray ["DEL".toList, K], getackCmd]⟩ := rfl
  rw [h0, h]
  norm_num

/-- C10 witness: `DEL nokey` on an empty store replies `:0` yet propagates
the 24-byte command and advances the offset by 24. -/
theorem del_absent_still_propagates_witness :
    dispatch initialSt 0 ["DEL".toList, "nokey".toList] =
      some ⟨⟨[], 0, [], 24, defaultConfig⟩, [":0\r\n".toList],
        [encodeArray ["DEL".toList, "nokey".toList], getackCmd]⟩ :=
  del_absent_still_propagates initialSt 0 "nokey".toList rfl

theorem resp_roundtrip_main (L : List (List Char)) (a0 : List Char) (c0 : Char)
    (hcr : ∀ p ∈ L ++ [a0 ++ [c0]], '\r' ∉ p) (hc0 : isPyWS c0 = false) :
    parse_resp (encodeArray (L ++ [a0 ++ [c0]])) = some (L ++ [a0 ++ [c0]]) := by
  have hsplit : splitCRLF (pyStrip (encodeArray (L ++ [a0 ++ [c0]]))) =
      linesOf (L ++ [a0 ++ [c0]]) := by
    rw [pyStrip_encode L a0 c0 hc0]
    exact splitCRLF_joinLines _ (by simp [linesOf]) (linesOf_no_cr _ hcr)
  have h0 : parse_resp (encodeArray (L ++ [a0 ++ [c0]])) =
      (match splitCRLF (pyStrip (encodeArray (L ++ [a0 ++ [c0]]))) with
       | [] => some []
       | p0 :: rest =>
         if p0.head? = some '*' then
           match parseInt (p0.drop 1) with
           | none => none
           | some n => if n ≤ 0 then some [] else parseLoop rest n.toNat
         else some []) := rfl
  rw [h0, hsplit, linesOf]
  have hd : (('*' :: natDigits (L ++ [a0 ++ [c0]]).length).drop 1) =
      natDigits (L ++ [a0 ++ [c0]]).length := rfl
  show (if ('*' :: natDigits (L ++ [a0 ++ [c0]]).length).head? = some '*' then
      match parseInt (List.drop 1 ('*' :: natDigits (L ++ [a0 ++ [c0]]).length)) with
      | none => none
      | some n => if n ≤ 0 then some [] else parseLoop (pairsOf (L ++ [a0 ++ [c0]])) n.toNat
    else some []) = some (L ++ [a0 ++ [c0]])
  rw [if_pos (show ('*' :: natDigits (L ++ [a0 ++ [c0]]).length).head? = some '*' from rfl)]
  rw [hd, parseInt_natDigits]
  show (if ((L ++ [a0 ++ [c0]]).length : Int) ≤ 0 then some []
        else parseLoop (pairsOf (L ++ [a0 ++ [c0]])) ((L ++ [a0 ++ [c0]]).length : Int).toNat) =
    some (L ++ [a0 ++ [c0]])
  have hpos : 0 < (L ++ [a0 ++ [c0]]).length := by simp
  rw [if_neg (show ¬(((L ++ [a0 ++ [c0]]).length : Int) ≤ 0) by omega)]
  rw [Int.toNat_natCast]
  exact parseLoop_pairsOf _

/-- C4 counterexample: the array `["a\r\nb"]` (one bulk string whose payload
contains CRLF) does not round-trip: `parse_resp` splits the exactly encoded
bytes on every CRLF (main.py line 151), so decoding yields `["a"]`. -/
theorem resp_roundtrip_fails_on_crlf_payload :
    parse_resp (encodeArray [['a', '\r', '\n', 'b']]) = some [['a']] ∧
    ([['a']] : List (List Char)) ≠ [['a', '\r', '\n', 'b']] :=
  ⟨rfl, by decide⟩

/-- C4 amended: `decode (encode v) = v` holds for the empty array and for
every non-empty array of bulk strings whose payloads contain no carriage
return (so no CRLF can be fabricated inside a payload) and whose final
payload is non-empty and ends in a character outside Python's `str`
whitespace set (so the `strip()` at main.py line 151 removes exactly the
trailing CRLF and nothing of the payload).  The final payload is written
`a0 ++ [c0]` to expose its last character. -/
theorem resp_roundtrip_no_cr_payloads (L : List (List Char)) (a0 : List Char) (c0 : Char)
    (hcr : ∀ p ∈ L ++ [a0 ++ [c0]], '\r' ∉ p) (hc0 : isPyWS c0 = false) :
    parse_resp (encodeArray (L ++ [a0 ++ [c0]])) = some (L ++ [a0 ++ [c0]]) ∧
    parse_resp (encodeArray ([] : List (List Char))) = some [] :=
  ⟨resp_roundtrip_main L a0 c0 hcr hc0, rfl⟩

/-- C4 witness: the two-element array `["hi", "bc"]` round-trips. -/
theorem resp_roundtrip_no_cr_payloads_witness :
    parse_resp (encodeArray [['h', 'i'], ['b', 'c']]) = some [['h', 'i'], ['b', 'c']] :=
  (resp_roundtrip_no_cr_payloads [['h', 'i']] ['b'] 'c' (by decide) (by decide)).1
